import Mathlib

/-!
Shallow embedding of the circular buffer implemented in
src/circularbuffer.c of the c-circus repository, together with proofs of
the specification claims about it.

Machine integers are modelled as Nat with explicit reduction modulo 2 ^ w
wherever the C code relies on unsigned wrap-around.  The C assert calls
are modelled with Option: none is a failed assertion (a debug-build
abort); the _body functions are the assertion-free function bodies, i.e.
the code that runs once the asserts have passed (or in an NDEBUG build).
The byte store (uint8_t * memory) is an Option (List Nat): none models a
NULL pointer.
-/

/-- Wrap-around subtraction of w-bit unsigned values, as C computes a - b
on unsigned operands of width w. -/
def wsub (w a b : Nat) : Nat := (a % 2 ^ w + (2 ^ w - b % 2 ^ w)) % 2 ^ w

/-- The CircularBufferObject_t struct of circularbuffer.h.  Fields back,
front, lengthMask are uint16_t, length is uint32_t, faultFlag is a
boolean stored in a uint16_t, memory is a uint8_t pointer. -/
structure CircularBufferObject where
  back : Nat
  front : Nat
  faultFlag : Bool
  lengthMask : Nat
  length : Nat
  memory : Option (List Nat)
deriving DecidableEq

/-- CircularBuffer_init: asserts length_2N <= 16 (modelled by none on
violation), then sets lengthMask = (1 << length_2N) - 1, length =
lengthMask + 1 when length_2N is nonzero and 0 otherwise, clears the
fault flag and both cursors. -/
def CircularBuffer_init (bufferMemory : Option (List Nat)) (length_2N : Nat) :
    Option CircularBufferObject :=
  if length_2N ≤ 16 then
    some { memory := bufferMemory
           lengthMask := 2 ^ length_2N - 1
           length := if length_2N ≠ 0 then (2 ^ length_2N - 1) + 1 else 0
           faultFlag := false
           front := 0
           back := 0 }
  else none

/-- Body of CircularBuffer_getUnreadSize: (back - front) & lengthMask in
uint16 arithmetic, computed from the snapshot of the two cursors.  (In
the sequential embedding the snapshot is simply the current field pair.) -/
def CircularBuffer_getUnreadSize_body (b : CircularBufferObject) : Nat :=
  wsub 16 b.back b.front &&& b.lengthMask

/-- CircularBuffer_getUnreadSize: asserts memory is non-NULL, then
returns the masked cursor difference. -/
def CircularBuffer_getUnreadSize (b : CircularBufferObject) : Option Nat :=
  if b.memory.isSome then some (CircularBuffer_getUnreadSize_body b) else none

/-- Body of CircularBuffer_checkAndClearFault: optionally realigns front
to back, then reports and clears the fault flag. -/
def CircularBuffer_checkAndClearFault_body (b : CircularBufferObject)
    (clearBuffer : Bool) : Bool × CircularBufferObject :=
  let b1 := if clearBuffer then { b with front := b.back } else b
  if b1.faultFlag then (true, { b1 with faultFlag := false }) else (false, b1)

/-- CircularBuffer_checkAndClearFault: asserts memory is non-NULL, then
runs the body. -/
def CircularBuffer_checkAndClearFault (b : CircularBufferObject)
    (clearBuffer : Bool) : Option (Bool × CircularBufferObject) :=
  if b.memory.isSome then some (CircularBuffer_checkAndClearFault_body b clearBuffer)
  else none

/-- Body of CircularBuffer_pushBackByte: if unread < lengthMask, write
the byte at back, advance back by one (masked) and return true;
otherwise set the fault flag and return false. -/
def CircularBuffer_pushBackByte_body (b : CircularBufferObject) (data : Nat) :
    Bool × CircularBufferObject :=
  let unread := CircularBuffer_getUnreadSize_body b
  if unread < b.lengthMask then
    (true, { b with memory := b.memory.map (fun mem => mem.set b.back data)
                    back := (b.back + 1) &&& b.lengthMask })
  else
    (false, { b with faultFlag := true })

/-- CircularBuffer_pushBackByte: asserts memory is non-NULL, then runs
the body. -/
def CircularBuffer_pushBackByte (b : CircularBufferObject) (data : Nat) :
    Option (Bool × CircularBufferObject) :=
  if b.memory.isSome then some (CircularBuffer_pushBackByte_body b data) else none

/-- Body of CircularBuffer_popFrontByte.  The caller-supplied destination
byte (*data) is passed in and returned, so that "the destination is not
written on failure" is expressible: on success the returned byte is the
element at front, on failure it is the unchanged input value dest. -/
def CircularBuffer_popFrontByte_body (b : CircularBufferObject) (dest : Nat) :
    Bool × Nat × CircularBufferObject :=
  if b.back ≠ b.front then
    (true, (b.memory.getD []).getD b.front 0,
      { b with front := (b.front + 1) &&& b.lengthMask })
  else
    (false, dest, b)

/-- CircularBuffer_popFrontByte: asserts memory is non-NULL, then runs
the body. -/
def CircularBuffer_popFrontByte (b : CircularBufferObject) (dest : Nat) :
    Option (Bool × Nat × CircularBufferObject) :=
  if b.memory.isSome then some (CircularBuffer_popFrontByte_body b dest) else none

/-- memcpy(&mem[idx], src, src.length): writes the elements of src at
consecutive indices starting at idx. -/
def memWrite (mem : List Nat) (idx : Nat) (src : List Nat) : List Nat :=
  match src with
  | [] => mem
  | d :: rest => memWrite (mem.set idx d) (idx + 1) rest

/-- memcpy(dst, &mem[idx], cnt): reads cnt elements at consecutive
indices starting at idx. -/
def memRead (mem : List Nat) (idx cnt : Nat) : List Nat :=
  (List.range cnt).map (fun i => mem.getD (idx + i) 0)

/-- The while loop of CircularBuffer_pushBack.  Each iteration copies
partLen = min(lenTotal, length - back) bytes (the subtraction is uint32),
advances back by partLen (masked), and consumes partLen bytes of the
source.  The C loop has no fuel; under the representation invariant
(back < length) each iteration copies at least one byte, so lenTotal
units of fuel always suffice and the fuel never runs out. -/
def pushLoop (fuel : Nat) (mem : List Nat) (back mask len : Nat)
    (data : List Nat) (lenTotal : Nat) : List Nat × Nat :=
  match fuel with
  | 0 => (mem, back)
  | fuel + 1 =>
    if lenTotal > 0 then
      let partLen := if wsub 32 len back < lenTotal then wsub 32 len back else lenTotal
      pushLoop fuel (memWrite mem back (data.take partLen))
        ((back + partLen) &&& mask) mask len (data.drop partLen) (lenTotal - partLen)
    else (mem, back)

/-- Body of CircularBuffer_pushBack: lenTotal = lengthMask - unread
(never underflows since the masked difference is at most lengthMask),
clipped to maxlen; then the 1-or-2-part copy loop; returns the clipped
length and the updated object. -/
def CircularBuffer_pushBack_body (b : CircularBufferObject)
    (data : List Nat) (maxlen : Nat) : Nat × CircularBufferObject :=
  let lenTotal0 := b.lengthMask - CircularBuffer_getUnreadSize_body b
  let lenTotal := if lenTotal0 > maxlen then maxlen else lenTotal0
  let actualLen := lenTotal
  let p := pushLoop lenTotal (b.memory.getD []) b.back b.lengthMask b.length data lenTotal
  (actualLen, { b with memory := b.memory.map (fun _ => p.1), back := p.2 })

/-- CircularBuffer_pushBack: asserts memory is non-NULL, then runs the
body. -/
def CircularBuffer_pushBack (b : CircularBufferObject) (data : List Nat)
    (maxlen : Nat) : Option (Nat × CircularBufferObject) :=
  if b.memory.isSome then some (CircularBuffer_pushBack_body b data maxlen) else none

/-- The while loop of CircularBuffer_popFront, returning the copied-out
bytes and the final front cursor.  Fuel as in pushLoop. -/
def popLoop (fuel : Nat) (mem : List Nat) (front mask len : Nat)
    (lenTotal : Nat) : List Nat × Nat :=
  match fuel with
  | 0 => ([], front)
  | fuel + 1 =>
    if lenTotal > 0 then
      let partLen := if wsub 32 len front < lenTotal then wsub 32 len front else lenTotal
      let p := popLoop fuel mem ((front + partLen) &&& mask) mask len (lenTotal - partLen)
      (memRead mem front partLen ++ p.1, p.2)
    else ([], front)

/-- Body of CircularBuffer_popFront: lenTotal = unread clipped to maxlen,
then the 1-or-2-part copy loop; returns the copied bytes, the clipped
length and the updated object. -/
def CircularBuffer_popFront_body (b : CircularBufferObject) (maxlen : Nat) :
    List Nat × Nat × CircularBufferObject :=
  let lenTotal0 := CircularBuffer_getUnreadSize_body b
  let lenTotal := if lenTotal0 > maxlen then maxlen else lenTotal0
  let actualLen := lenTotal
  let p := popLoop lenTotal (b.memory.getD []) b.front b.lengthMask b.length lenTotal
  (p.1, actualLen, { b with front := p.2 })

/-- CircularBuffer_popFront: asserts memory is non-NULL, then runs the
body. -/
def CircularBuffer_popFront (b : CircularBufferObject) (maxlen : Nat) :
    Option (List Nat × Nat × CircularBufferObject) :=
  if b.memory.isSome then some (CircularBuffer_popFront_body b maxlen) else none

/-- Representation invariant of a buffer initialized with exponent N,
1 <= N <= 16: a non-NULL store of 2 ^ N bytes, mask and length fields as
set by CircularBuffer_init, both cursors in range. -/
def GoodBuf (N : Nat) (b : CircularBufferObject) : Prop :=
  1 ≤ N ∧ N ≤ 16 ∧ Option.map List.length b.memory = some (2 ^ N) ∧
  b.lengthMask = 2 ^ N - 1 ∧ b.length = 2 ^ N ∧ b.back < 2 ^ N ∧ b.front < 2 ^ N

instance (N : Nat) (b : CircularBufferObject) : Decidable (GoodBuf N b) := by
  unfold GoodBuf; infer_instance

/-- The sequence of unread bytes currently held by the buffer, read from
position s onwards, wrapping modulo M. -/
def wrapRead (M : Nat) (mem : List Nat) (s c : Nat) : List Nat :=
  (List.range c).map (fun i => mem.getD ((s + i) % M) 0)

/-- Writing a list of bytes at consecutive positions starting at s,
wrapping modulo M. -/
def wrapWrite (M : Nat) (mem : List Nat) (s : Nat) (data : List Nat) : List Nat :=
  match data with
  | [] => mem
  | d :: rest => wrapWrite M (mem.set (s % M) d) ((s + 1) % M) rest

/-- Abstraction function: the FIFO queue of unread bytes represented by
the buffer, oldest first. -/
def bufQueue (N : Nat) (b : CircularBufferObject) : List Nat :=
  wrapRead (2 ^ N) (b.memory.getD []) b.front (CircularBuffer_getUnreadSize_body b)

/-- Iterated single-byte push; none as soon as one push fails (either by
a failed assertion or by a full buffer). -/
def pushBytesAll (b : CircularBufferObject) (data : List Nat) :
    Option CircularBufferObject :=
  match data with
  | [] => some b
  | d :: rest =>
    match CircularBuffer_pushBackByte b d with
    | some (true, b1) => pushBytesAll b1 rest
    | _ => none

/-- Iterated single-byte pop of cnt bytes (destination byte initially 0);
none as soon as one pop fails. -/
def popBytesAll (b : CircularBufferObject) (cnt : Nat) :
    Option (List Nat × CircularBufferObject) :=
  match cnt with
  | 0 => some ([], b)
  | k + 1 =>
    match CircularBuffer_popFrontByte b 0 with
    | some (true, d, b1) =>
      match popBytesAll b1 k with
      | some (l, b2) => some (d :: l, b2)
      | none => none
    | _ => none

/-- A single-producer/single-consumer step: one single-byte push or one
single-byte pop. -/
inductive SPSCOp where
  | push (data : Nat)
  | pop
deriving DecidableEq

/-- One step of the push/pop sequence, also counting successful pushes
and successful pops.  A none result (failed assertion, unreachable from
an initialized buffer) leaves the state and the counters unchanged. -/
def stepSPSC (acc : CircularBufferObject × Nat × Nat) (op : SPSCOp) :
    CircularBufferObject × Nat × Nat :=
  match op with
  | .push d =>
    match CircularBuffer_pushBackByte acc.1 d with
    | some (true, b1) => (b1, acc.2.1 + 1, acc.2.2)
    | some (false, b1) => (b1, acc.2.1, acc.2.2)
    | none => acc
  | .pop =>
    match CircularBuffer_popFrontByte acc.1 0 with
    | some (true, _, b1) => (b1, acc.2.1, acc.2.2 + 1)
    | some (false, _, b1) => (b1, acc.2.1, acc.2.2)
    | none => acc

/-- Run a sequence of single-byte pushes and pops, returning the final
buffer together with the number of successful pushes and pops. -/
def runSPSC (b : CircularBufferObject) (ops : List SPSCOp) :
    CircularBufferObject × Nat × Nat :=
  ops.foldl stepSPSC (b, 0, 0)

/-- Any one of the six buffer operations, for stating which of them can
change the fault flag. -/
inductive BufAnyOp where
  | pushByte (d : Nat)
  | popByte
  | bulkPush (data : List Nat) (maxlen : Nat)
  | bulkPop (maxlen : Nat)
  | query
  | clearFault (clearBuffer : Bool)
deriving DecidableEq

/-- The buffer state after one operation (the unread-size query does not
modify the state).  A none result leaves the state unchanged. -/
def applyAnyOp (b : CircularBufferObject) : BufAnyOp → CircularBufferObject
  | .pushByte d => (Option.map Prod.snd (CircularBuffer_pushBackByte b d)).getD b
  | .popByte => (Option.map (fun r => r.2.2) (CircularBuffer_popFrontByte b 0)).getD b
  | .bulkPush data maxlen =>
      (Option.map Prod.snd (CircularBuffer_pushBack b data maxlen)).getD b
  | .bulkPop maxlen =>
      (Option.map (fun r => r.2.2) (CircularBuffer_popFront b maxlen)).getD b
  | .query => b
  | .clearFault c => (Option.map Prod.snd (CircularBuffer_checkAndClearFault b c)).getD b

/-! ### Arithmetic foundations -/

/-- The masked cursor difference never exceeds the mask. -/
theorem getUnreadSize_body_le (b : CircularBufferObject) :
    CircularBuffer_getUnreadSize_body b ≤ b.lengthMask :=
  Nat.and_le_right

/-- Wrap-around subtraction agrees with exact subtraction in the
no-borrow case. -/
theorem wsub_eq (w a b : Nat) (ha : a < 2 ^ w) (hb : b < 2 ^ w) :
    wsub w a b = (2 ^ w + a - b) % 2 ^ w := by
  unfold wsub
  rw [Nat.mod_eq_of_lt ha, Nat.mod_eq_of_lt hb]
  congr 1
  omega

/-- Closed form of the wrapped distance (M + a - b) % M for a, b < M. -/
theorem mod_dist_eq (M a b : Nat) (ha : a < M) (hb : b < M) :
    (M + a - b) % M = if b ≤ a then a - b else M + a - b := by
  rcases le_or_lt b a with hba | hab
  · rw [if_pos hba, show M + a - b = M + (a - b) by omega, Nat.add_mod_left,
      Nat.mod_eq_of_lt (by omega)]
  · rw [if_neg (by omega), Nat.mod_eq_of_lt (by omega)]

/-- Wrapped distance from b to (b + c) % M recovers c. -/
theorem mod_dist_add (M b c : Nat) (hb : b < M) (hc : c < M) :
    (M + (b + c) % M - b) % M = c := by
  rcases Nat.lt_or_ge (b + c) M with hlt | hge
  · rw [Nat.mod_eq_of_lt hlt, show M + (b + c) - b = M + c by omega,
      Nat.add_mod_left, Nat.mod_eq_of_lt hc]
  · have h2 : b + c - M < M := by omega
    have : (b + c) % M = b + c - M := by
      rw [Nat.mod_eq_sub_mod hge, Nat.mod_eq_of_lt h2]
    rw [this, show M + (b + c - M) - b = c by omega, Nat.mod_eq_of_lt hc]

/-- The unread size of a well-formed buffer is the wrapped cursor
distance modulo the capacity. -/
theorem getUnread_eq {N : Nat} {b : CircularBufferObject} (h : GoodBuf N b) :
    CircularBuffer_getUnreadSize_body b = (2 ^ N + b.back - b.front) % 2 ^ N := by
  obtain ⟨h1, h16, hmem, hmask, hlen, hback, hfront⟩ := h
  have hpow : 2 ^ N ≤ 2 ^ 16 := Nat.pow_le_pow_right (by omega) h16
  have hdvd : 2 ^ N ∣ 2 ^ 16 := pow_dvd_pow 2 h16
  unfold CircularBuffer_getUnreadSize_body
  rw [hmask, Nat.and_pow_two_sub_one_eq_mod,
    wsub_eq 16 b.back b.front (by omega) (by omega),
    Nat.mod_mod_of_dvd _ hdvd,
    show 2 ^ 16 + b.back - b.front = (2 ^ N + b.back - b.front) + (2 ^ 16 - 2 ^ N) by omega,
    Nat.add_mod, Nat.mod_eq_zero_of_dvd (Nat.dvd_sub' hdvd dvd_rfl),
    Nat.add_zero, Nat.mod_mod_of_dvd _ dvd_rfl]

/-- The unread size of a well-formed buffer is below the capacity. -/
theorem getUnread_lt {N : Nat} {b : CircularBufferObject} (h : GoodBuf N b) :
    CircularBuffer_getUnreadSize_body b < 2 ^ N := by
  rw [getUnread_eq h]
  exact Nat.mod_lt _ (by positivity)

/-- The back cursor sits exactly unread-many slots after the front
cursor, modulo the capacity. -/
theorem back_eq_front_add {N : Nat} {b : CircularBufferObject} (h : GoodBuf N b) :
    b.back = (b.front + CircularBuffer_getUnreadSize_body b) % 2 ^ N := by
  obtain ⟨h1, h16, hmem, hmask, hlen, hback, hfront⟩ := id h
  rw [getUnread_eq h, mod_dist_eq _ _ _ hback hfront]
  split
  · rw [show b.front + (b.back - b.front) = b.back by omega, Nat.mod_eq_of_lt hback]
  · rw [show b.front + (2 ^ N + b.back - b.front) = 2 ^ N + b.back by omega,
      Nat.add_mod_left, Nat.mod_eq_of_lt hback]

/-- The buffer is empty exactly when the cursors coincide. -/
theorem getUnread_eq_zero_iff {N : Nat} {b : CircularBufferObject} (h : GoodBuf N b) :
    CircularBuffer_getUnreadSize_body b = 0 ↔ b.back = b.front := by
  obtain ⟨h1, h16, hmem, hmask, hlen, hback, hfront⟩ := id h
  rw [getUnread_eq h, mod_dist_eq _ _ _ hback hfront]
  split <;> omega

/-- A well-formed buffer has a store of exactly the capacity's size. -/
theorem GoodBuf.mem_spec {N : Nat} {b : CircularBufferObject} (h : GoodBuf N b) :
    ∃ mem, b.memory = some mem ∧ mem.length = 2 ^ N := by
  obtain ⟨-, -, hmem, -⟩ := h
  cases hmemo : b.memory with
  | none => rw [hmemo] at hmem; simp at hmem
  | some mem => exact ⟨mem, rfl, by rw [hmemo] at hmem; simpa using hmem⟩

/-! ### wrapRead facts -/

/-- Length of the abstract queue segment. -/
theorem wrapRead_length (M : Nat) (mem : List Nat) (s c : Nat) :
    (wrapRead M mem s c).length = c := by
  simp [wrapRead]

/-- Reading one more element appends the element at offset c. -/
theorem wrapRead_succ_right (M : Nat) (mem : List Nat) (s c : Nat) :
    wrapRead M mem s (c + 1) = wrapRead M mem s c ++ [mem.getD ((s + c) % M) 0] := by
  simp [wrapRead, List.range_succ]

/-- Reading one more element prepends the element at the start offset. -/
theorem wrapRead_succ_left (M : Nat) (mem : List Nat) (s c : Nat) :
    wrapRead M mem s (c + 1) = mem.getD (s % M) 0 :: wrapRead M mem ((s + 1) % M) c := by
  unfold wrapRead
  rw [List.range_succ_eq_map, List.map_cons, List.map_map]
  congr 1
  apply List.map_congr_left
  intro i _
  simp only [Function.comp_apply]
  rw [Nat.mod_add_mod, show s + 1 + i = s + Nat.succ i from by omega]

/-- Overwriting a slot outside the read window does not change the
window's contents. -/
theorem wrapRead_set_notin (M : Nat) (mem : List Nat) (s c j d : Nat)
    (hj : ∀ i, i < c → (s + i) % M ≠ j) :
    wrapRead M (mem.set j d) s c = wrapRead M mem s c := by
  unfold wrapRead
  apply List.map_congr_left
  intro i hi
  rw [List.getD_eq_getElem?_getD, List.getD_eq_getElem?_getD,
    List.getElem?_set_ne (Ne.symm (hj i (List.mem_range.mp hi)))]

/-- Overwriting the slot just past the read window (offset c, with
c < M) does not change the window's contents. -/
theorem wrapRead_set_last (M : Nat) (mem : List Nat) (s c d : Nat) (hc : c < M) :
    wrapRead M (mem.set ((s + c) % M) d) s c = wrapRead M mem s c := by
  apply wrapRead_set_notin
  intro i hi heq
  have hmod : i % M = c % M :=
    Nat.ModEq.add_left_cancel' s (show (s + i) % M = (s + c) % M from heq)
  rw [Nat.mod_eq_of_lt (by omega), Nat.mod_eq_of_lt hc] at hmod
  omega

/-! ### Single-byte push and pop, step lemmas -/

/-- A successful single-byte push: with unread below capacity - 1, the
byte is stored at back and back advances by one slot. -/
theorem pushByte_succ {N : Nat} {b : CircularBufferObject} {mem : List Nat}
    (h : GoodBuf N b) (hm : b.memory = some mem) (d : Nat)
    (hlt : CircularBuffer_getUnreadSize_body b < 2 ^ N - 1) :
    CircularBuffer_pushBackByte b d =
      some (true, { b with memory := some (mem.set b.back d),
                           back := (b.back + 1) % 2 ^ N }) := by
  obtain ⟨h1, h16, hmem, hmask, hlen, hback, hfront⟩ := id h
  simp [CircularBuffer_pushBackByte, CircularBuffer_pushBackByte_body, hm, hmask, hlt,
    Nat.and_pow_two_sub_one_eq_mod]

/-- A failed single-byte push: with unread at capacity - 1 the push only
sets the fault flag. -/
theorem pushByte_fail {N : Nat} {b : CircularBufferObject} (h : GoodBuf N b) (d : Nat)
    (hge : ¬ CircularBuffer_getUnreadSize_body b < 2 ^ N - 1) :
    CircularBuffer_pushBackByte b d = some (false, { b with faultFlag := true }) := by
  obtain ⟨mem, hm, hml⟩ := h.mem_spec
  obtain ⟨h1, h16, hmem, hmask, hlen, hback, hfront⟩ := id h
  simp [CircularBuffer_pushBackByte, CircularBuffer_pushBackByte_body, hm, hmask, hge]

/-- A successful push preserves the representation invariant. -/
theorem pushByte_succ_good {N : Nat} {b : CircularBufferObject} {mem : List Nat}
    (h : GoodBuf N b) (hm : b.memory = some mem) (d : Nat) :
    GoodBuf N { b with memory := some (mem.set b.back d),
                       back := (b.back + 1) % 2 ^ N } := by
  obtain ⟨h1, h16, hmem, hmask, hlen, hback, hfront⟩ := id h
  have hml : mem.length = 2 ^ N := by rw [hm] at hmem; simpa using hmem
  exact ⟨h1, h16, by simpa using hml, hmask, hlen, Nat.mod_lt _ (by positivity), hfront⟩

/-- A successful push increases the unread size by one. -/
theorem unread_push {N : Nat} {b : CircularBufferObject} {mem : List Nat}
    (h : GoodBuf N b) (hm : b.memory = some mem) (d : Nat)
    (hlt : CircularBuffer_getUnreadSize_body b < 2 ^ N - 1) :
    CircularBuffer_getUnreadSize_body
        { b with memory := some (mem.set b.back d), back := (b.back + 1) % 2 ^ N }
      = CircularBuffer_getUnreadSize_body b + 1 := by
  obtain ⟨h1, h16, hmem, hmask, hlen, hback, hfront⟩ := id h
  have hpos : 0 < 2 ^ N := by positivity
  rw [getUnread_eq (pushByte_succ_good h hm d)]
  show (2 ^ N + (b.back + 1) % 2 ^ N - b.front) % 2 ^ N = _
  rw [back_eq_front_add h, Nat.mod_add_mod,
    show b.front + CircularBuffer_getUnreadSize_body b + 1
      = b.front + (CircularBuffer_getUnreadSize_body b + 1) from by omega]
  exact mod_dist_add _ _ _ hfront (by omega)

/-- A successful push appends the pushed byte to the abstract queue. -/
theorem bufQueue_push {N : Nat} {b : CircularBufferObject} {mem : List Nat}
    (h : GoodBuf N b) (hm : b.memory = some mem) (d : Nat)
    (hlt : CircularBuffer_getUnreadSize_body b < 2 ^ N - 1) :
    bufQueue N { b with memory := some (mem.set b.back d),
                        back := (b.back + 1) % 2 ^ N }
      = bufQueue N b ++ [d] := by
  obtain ⟨h1, h16, hmem, hmask, hlen, hback, hfront⟩ := id h
  have hml : mem.length = 2 ^ N := by rw [hm] at hmem; simpa using hmem
  have hcnt : CircularBuffer_getUnreadSize_body b < 2 ^ N := getUnread_lt h
  unfold bufQueue
  rw [unread_push h hm d hlt, hm]
  show wrapRead (2 ^ N) (mem.set b.back d) b.front (CircularBuffer_getUnreadSize_body b + 1) = _
  rw [wrapRead_succ_right]
  congr 1
  · conv_lhs => rw [back_eq_front_add h]
    exact wrapRead_set_last _ _ _ _ _ hcnt
  · rw [← back_eq_front_add h, List.getD_eq_getElem?_getD,
      List.getElem?_set_self (by rw [hml]; exact hback), Option.getD_some]

/-- A successful single-byte pop: with a nonempty buffer, the byte at
front is returned and front advances by one slot. -/
theorem popByte_succ {N : Nat} {b : CircularBufferObject} {mem : List Nat}
    (h : GoodBuf N b) (hm : b.memory = some mem) (dest : Nat)
    (hne : CircularBuffer_getUnreadSize_body b ≠ 0) :
    CircularBuffer_popFrontByte b dest =
      some (true, mem.getD b.front 0, { b with front := (b.front + 1) % 2 ^ N }) := by
  obtain ⟨h1, h16, hmem, hmask, hlen, hback, hfront⟩ := id h
  have hbf : b.back ≠ b.front := fun he => hne ((getUnread_eq_zero_iff h).mpr he)
  simp [CircularBuffer_popFrontByte, CircularBuffer_popFrontByte_body, hm, hmask, hbf,
    Nat.and_pow_two_sub_one_eq_mod]

/-- A failed single-byte pop: an empty buffer leaves the state and the
destination byte untouched. -/
theorem popByte_fail {b : CircularBufferObject} {mem : List Nat} (hm : b.memory = some mem)
    (he : b.back = b.front) (dest : Nat) :
    CircularBuffer_popFrontByte b dest = some (false, dest, b) := by
  simp [CircularBuffer_popFrontByte, CircularBuffer_popFrontByte_body, hm, he]

/-- A successful pop preserves the representation invariant. -/
theorem popByte_succ_good {N : Nat} {b : CircularBufferObject} (h : GoodBuf N b) :
    GoodBuf N { b with front := (b.front + 1) % 2 ^ N } := by
  obtain ⟨h1, h16, hmem, hmask, hlen, hback, hfront⟩ := id h
  exact ⟨h1, h16, hmem, hmask, hlen, hback, Nat.mod_lt _ (by positivity)⟩

/-- A successful pop decreases the unread size by one. -/
theorem unread_pop {N : Nat} {b : CircularBufferObject} (h : GoodBuf N b)
    (hne : CircularBuffer_getUnreadSize_body b ≠ 0) :
    CircularBuffer_getUnreadSize_body { b with front := (b.front + 1) % 2 ^ N }
      = CircularBuffer_getUnreadSize_body b - 1 := by
  obtain ⟨h1, h16, hmem, hmask, hlen, hback, hfront⟩ := id h
  have hcnt : CircularBuffer_getUnreadSize_body b < 2 ^ N := getUnread_lt h
  rw [getUnread_eq (popByte_succ_good h)]
  show (2 ^ N + b.back - (b.front + 1) % 2 ^ N) % 2 ^ N = _
  conv_lhs => rw [back_eq_front_add h,
    show b.front + CircularBuffer_getUnreadSize_body b
      = (b.front + 1) + (CircularBuffer_getUnreadSize_body b - 1) from by omega,
    ← Nat.mod_add_mod]
  exact mod_dist_add _ _ _ (Nat.mod_lt _ (by positivity)) (by omega)

/-- A successful pop removes the head of the abstract queue: the queue
of a nonempty buffer is its front element followed by the queue of the
popped buffer. -/
theorem bufQueue_cons {N : Nat} {b : CircularBufferObject} {mem : List Nat}
    (h : GoodBuf N b) (hm : b.memory = some mem)
    (hne : CircularBuffer_getUnreadSize_body b ≠ 0) :
    bufQueue N b
      = mem.getD b.front 0 :: bufQueue N { b with front := (b.front + 1) % 2 ^ N } := by
  obtain ⟨h1, h16, hmem, hmask, hlen, hback, hfront⟩ := id h
  obtain ⟨k, hk⟩ : ∃ k, CircularBuffer_getUnreadSize_body b = k + 1 :=
    ⟨CircularBuffer_getUnreadSize_body b - 1, by omega⟩
  unfold bufQueue
  rw [unread_pop h hne, hm, hk]
  show wrapRead (2 ^ N) mem b.front (k + 1)
    = mem.getD b.front 0 :: wrapRead (2 ^ N) mem ((b.front + 1) % 2 ^ N) (k + 1 - 1)
  rw [wrapRead_succ_left, Nat.mod_eq_of_lt hfront, Nat.add_sub_cancel]


/-! ### wrapWrite facts -/

/-- Wrapped writing preserves the store's size. -/
theorem wrapWrite_length (M : Nat) (mem : List Nat) (s : Nat) (data : List Nat) :
    (wrapWrite M mem s data).length = mem.length := by
  induction data generalizing mem s with
  | nil => rfl
  | cons d rest ih => simp [wrapWrite, ih]

/-- The start offset of a wrapped write only matters modulo M. -/
theorem wrapWrite_mod (M : Nat) (mem : List Nat) (s : Nat) (data : List Nat) :
    wrapWrite M mem (s % M) data = wrapWrite M mem s data := by
  cases data with
  | nil => rfl
  | cons d rest =>
    simp only [wrapWrite, Nat.mod_mod_of_dvd _ dvd_rfl, Nat.mod_add_mod]

/-- A wrapped write of a concatenation is two consecutive wrapped
writes. -/
theorem wrapWrite_append (M : Nat) (mem : List Nat) (s : Nat) (A B : List Nat) :
    wrapWrite M mem s (A ++ B)
      = wrapWrite M (wrapWrite M mem s A) ((s + A.length) % M) B := by
  induction A generalizing mem s with
  | nil =>
    simp only [List.nil_append, wrapWrite, List.length_nil, Nat.add_zero]
    exact (wrapWrite_mod M mem s B).symm
  | cons a A ih =>
    simp only [List.cons_append, wrapWrite, List.length_cons]
    rw [show A.append B = A ++ B from rfl, ih, Nat.mod_add_mod,
      show s + 1 + A.length = s + (A.length + 1) from by omega]

/-- A linear memcpy that stays within the store is a wrapped write. -/
theorem memWrite_eq_wrapWrite (M : Nat) (mem : List Nat) (s : Nat) (src : List Nat)
    (hs : s + src.length ≤ M) :
    memWrite mem s src = wrapWrite M mem s src := by
  induction src generalizing mem s with
  | nil => rfl
  | cons a t ih =>
    simp only [List.length_cons] at hs
    simp only [memWrite, wrapWrite, Nat.mod_eq_of_lt (show s < M from by omega)]
    rw [ih _ _ (by omega), ← wrapWrite_mod]

/-! ### Iterated single-byte operations -/

/-- Iterated single-byte pushes of a sequence that fits into the free
space: all pushes succeed, the bytes are written one after another from
back onwards (wrapping), back advances by the sequence's length, the
unread size grows by the sequence's length, and the sequence is appended
to the abstract queue. -/
theorem pushAll_spec {N : Nat} {b : CircularBufferObject} {mem : List Nat}
    (h : GoodBuf N b) (hm : b.memory = some mem) (data : List Nat)
    (hfit : CircularBuffer_getUnreadSize_body b + data.length ≤ 2 ^ N - 1) :
    pushBytesAll b data
      = some { b with memory := some (wrapWrite (2 ^ N) mem b.back data),
                      back := (b.back + data.length) % 2 ^ N } ∧
    GoodBuf N { b with memory := some (wrapWrite (2 ^ N) mem b.back data),
                       back := (b.back + data.length) % 2 ^ N } ∧
    CircularBuffer_getUnreadSize_body
        { b with memory := some (wrapWrite (2 ^ N) mem b.back data),
                 back := (b.back + data.length) % 2 ^ N }
      = CircularBuffer_getUnreadSize_body b + data.length ∧
    bufQueue N { b with memory := some (wrapWrite (2 ^ N) mem b.back data),
                        back := (b.back + data.length) % 2 ^ N }
      = bufQueue N b ++ data := by
  induction data generalizing b mem with
  | nil =>
    obtain ⟨h1, h16, hmem, hmask, hlen, hback, hfront⟩ := id h
    have hrec : { b with memory := some (wrapWrite (2 ^ N) mem b.back ([] : List Nat)),
                         back := (b.back + ([] : List Nat).length) % 2 ^ N } = b := by
      simp only [wrapWrite, List.length_nil, Nat.add_zero, Nat.mod_eq_of_lt hback, ← hm]
    rw [hrec]
    exact ⟨rfl, h, by simp, by simp⟩
  | cons d rest ih =>
    obtain ⟨h1, h16, hmem, hmask, hlen, hback, hfront⟩ := id h
    have hlt : CircularBuffer_getUnreadSize_body b < 2 ^ N - 1 := by
      simp only [List.length_cons] at hfit; omega
    have hg1 := pushByte_succ_good h hm d
    have hu1 := unread_push h hm d hlt
    have hq1 := bufQueue_push h hm d hlt
    have hfit1 : CircularBuffer_getUnreadSize_body
        { b with memory := some (mem.set b.back d), back := (b.back + 1) % 2 ^ N }
        + rest.length ≤ 2 ^ N - 1 := by
      rw [hu1]; simp only [List.length_cons] at hfit; omega
    obtain ⟨ih1, ih2, ih3, ih4⟩ := ih hg1 rfl hfit1
    have e1 : ((b.back + 1) % 2 ^ N + rest.length) % 2 ^ N
        = (b.back + (d :: rest).length) % 2 ^ N := by
      rw [Nat.mod_add_mod, List.length_cons]; congr 1; omega
    have e2 : wrapWrite (2 ^ N) (mem.set b.back d) ((b.back + 1) % 2 ^ N) rest
        = wrapWrite (2 ^ N) mem b.back (d :: rest) := by
      simp only [wrapWrite, Nat.mod_eq_of_lt hback]
    rw [e1, e2] at ih1 ih2 ih3 ih4
    have hstep : pushBytesAll b (d :: rest)
        = pushBytesAll { b with memory := some (mem.set b.back d),
                                back := (b.back + 1) % 2 ^ N } rest := by
      simp only [pushBytesAll]
      rw [pushByte_succ h hm d hlt]
    rw [hstep]
    refine ⟨ih1, ih2, ?_, ?_⟩
    · rw [ih3, hu1, List.length_cons]; omega
    · rw [ih4, hq1]; simp

/-- Iterated single-byte pops of n bytes from a buffer holding at least
n unread bytes: all pops succeed, they return the first n bytes of the
abstract queue in order, front advances by n, the unread size shrinks by
n, and the queue loses its first n elements. -/
theorem popAll_spec {N : Nat} {b : CircularBufferObject} {mem : List Nat}
    (h : GoodBuf N b) (hm : b.memory = some mem) (n : Nat)
    (hn : n ≤ CircularBuffer_getUnreadSize_body b) :
    popBytesAll b n
      = some ((bufQueue N b).take n, { b with front := (b.front + n) % 2 ^ N }) ∧
    GoodBuf N { b with front := (b.front + n) % 2 ^ N } ∧
    CircularBuffer_getUnreadSize_body { b with front := (b.front + n) % 2 ^ N }
      = CircularBuffer_getUnreadSize_body b - n ∧
    bufQueue N { b with front := (b.front + n) % 2 ^ N } = (bufQueue N b).drop n := by
  induction n generalizing b with
  | zero =>
    obtain ⟨h1, h16, hmem, hmask, hlen, hback, hfront⟩ := id h
    have hrec : { b with front := (b.front + 0) % 2 ^ N } = b := by
      rw [Nat.add_zero, Nat.mod_eq_of_lt hfront]
    rw [hrec]
    exact ⟨by simp [popBytesAll], h, by simp, by simp⟩
  | succ k ih =>
    obtain ⟨h1, h16, hmem, hmask, hlen, hback, hfront⟩ := id h
    have hne : CircularBuffer_getUnreadSize_body b ≠ 0 := by omega
    have hpop := popByte_succ h hm 0 hne
    have hg1 := popByte_succ_good h
    have hu1 := unread_pop h hne
    have hq1 := bufQueue_cons h hm hne
    have hk : k ≤ CircularBuffer_getUnreadSize_body
        { b with front := (b.front + 1) % 2 ^ N } := by rw [hu1]; omega
    obtain ⟨ih1, ih2, ih3, ih4⟩ := ih hg1 hm hk
    have e1 : ((b.front + 1) % 2 ^ N + k) % 2 ^ N = (b.front + (k + 1)) % 2 ^ N := by
      rw [Nat.mod_add_mod]; congr 1; omega
    rw [e1] at ih1 ih2 ih3 ih4
    have hstep : popBytesAll b (k + 1)
        = match popBytesAll { b with front := (b.front + 1) % 2 ^ N } k with
          | some (l, b2) => some (mem.getD b.front 0 :: l, b2)
          | none => none := by
      simp only [popBytesAll]
      rw [hpop]
    refine ⟨?_, ih2, ?_, ?_⟩
    · rw [hstep, ih1, hq1, List.take_succ_cons]
    · rw [ih3, hu1]; omega
    · rw [ih4, hq1, List.drop_succ_cons]

/-! ### The bulk copy loops -/

/-- Wrap-around subtraction with no borrow is plain subtraction. -/
theorem wsub_eq_sub (w a b : Nat) (hb : b ≤ a) (ha : a < 2 ^ w) :
    wsub w a b = a - b := by
  rw [wsub_eq w a b ha (by omega), show 2 ^ w + a - b = (a - b) + 2 ^ w from by omega,
    Nat.add_mod_right, Nat.mod_eq_of_lt (by omega)]

/-- The push loop does nothing when asked to copy zero bytes. -/
theorem pushLoop_zero (fuel : Nat) (mem : List Nat) (back mask len : Nat)
    (data : List Nat) : pushLoop fuel mem back mask len data 0 = (mem, back) := by
  cases fuel <;> simp [pushLoop]

/-- The pop loop does nothing when asked to copy zero bytes. -/
theorem popLoop_zero (fuel : Nat) (mem : List Nat) (front mask len : Nat) :
    popLoop fuel mem front mask len 0 = ([], front) := by
  cases fuel <;> simp [popLoop]

/-- Closed form of the push loop on a well-formed buffer: copying
n <= capacity - 1 bytes, with fuel n, performs a wrapped write of the
first n source bytes at back and advances back by n modulo the
capacity.  The loop body runs at most twice (the two-segment split). -/
theorem pushLoop_run (N : Nat) (mem data : List Nat) (back n : Nat) (h16 : N ≤ 16)
    (hback : back < 2 ^ N) (hn : n ≤ 2 ^ N - 1) (hdata : n ≤ data.length) :
    pushLoop n mem back (2 ^ N - 1) (2 ^ N) data n
      = (wrapWrite (2 ^ N) mem back (data.take n), (back + n) % 2 ^ N) := by
  have hpos : 0 < 2 ^ N := by positivity
  have h32 : 2 ^ N < 2 ^ 32 := Nat.pow_lt_pow_right (by omega) (by omega)
  rcases Nat.eq_zero_or_pos n with rfl | hnpos
  · simp [pushLoop, wrapWrite, Nat.mod_eq_of_lt hback]
  obtain ⟨m, rfl⟩ : ∃ m, n = m + 1 := ⟨n - 1, by omega⟩
  have hws : wsub 32 (2 ^ N) back = 2 ^ N - back :=
    wsub_eq_sub 32 _ _ (le_of_lt hback) h32
  rw [pushLoop, if_pos (Nat.succ_pos m), hws]
  rcases le_or_lt (m + 1) (2 ^ N - back) with hle | hlt
  · rw [if_neg (by omega)]
    dsimp only
    rw [Nat.sub_self, pushLoop_zero, Nat.and_pow_two_sub_one_eq_mod,
      memWrite_eq_wrapWrite (2 ^ N) mem back _
        (by rw [List.length_take]; omega)]
  · rw [if_pos hlt]
    dsimp only
    rw [show back + (2 ^ N - back) = 2 ^ N from by omega,
      Nat.and_pow_two_sub_one_eq_mod, Nat.mod_self]
    obtain ⟨m', rfl⟩ : ∃ m', m = m' + 1 := ⟨m - 1, by omega⟩
    have hq : m' + 1 + 1 - (2 ^ N - back) < 2 ^ N := by omega
    rw [pushLoop, if_pos (by omega : m' + 1 + 1 - (2 ^ N - back) > 0),
      wsub_eq_sub 32 (2 ^ N) 0 (Nat.zero_le _) h32, Nat.sub_zero,
      if_neg (by omega : ¬ 2 ^ N < m' + 1 + 1 - (2 ^ N - back))]
    dsimp only
    rw [Nat.sub_self, pushLoop_zero, Nat.zero_add, Nat.and_pow_two_sub_one_eq_mod,
      Nat.mod_eq_of_lt hq]
    have hsplit : data.take (m' + 1 + 1)
        = data.take (2 ^ N - back) ++ (data.drop (2 ^ N - back)).take
            (m' + 1 + 1 - (2 ^ N - back)) := by
      rw [← List.take_add, show 2 ^ N - back + (m' + 1 + 1 - (2 ^ N - back))
        = m' + 1 + 1 from by omega]
    rw [hsplit, wrapWrite_append,
      List.length_take, Nat.min_eq_left (by omega),
      show back + (2 ^ N - back) = 2 ^ N from by omega, Nat.mod_self,
      ← memWrite_eq_wrapWrite (2 ^ N) mem back _
        (by rw [List.length_take]; omega),
      ← memWrite_eq_wrapWrite (2 ^ N) _ 0 _
        (by rw [List.length_take, List.length_drop]; omega)]
    rw [Prod.mk.injEq,
      show back + (m' + 1 + 1) = 2 ^ N + (m' + 1 + 1 - (2 ^ N - back)) from by omega,
      Nat.add_mod_left, Nat.mod_eq_of_lt hq]
    exact ⟨rfl, rfl⟩

/-- A linear read that stays within the store is a wrapped read. -/
theorem memRead_eq_wrapRead (M : Nat) (mem : List Nat) (s c : Nat) (h : s + c ≤ M) :
    memRead mem s c = wrapRead M mem s c := by
  unfold memRead wrapRead
  apply List.map_congr_left
  intro i hi
  have : i < c := List.mem_range.mp hi
  rw [Nat.mod_eq_of_lt (by omega)]

/-- A wrapped read splits into two consecutive wrapped reads. -/
theorem wrapRead_add (M : Nat) (mem : List Nat) (s p q : Nat) :
    wrapRead M mem s (p + q)
      = wrapRead M mem s p ++ wrapRead M mem ((s + p) % M) q := by
  unfold wrapRead
  rw [List.range_add, List.map_append, List.map_map]
  congr 1
  apply List.map_congr_left
  intro i _
  simp only [Function.comp_apply]
  rw [Nat.mod_add_mod, show s + p + i = s + (p + i) from by omega]

/-- Closed form of the pop loop on a well-formed buffer: copying
n <= capacity - 1 bytes, with fuel n, returns the wrapped read of n
bytes at front and advances front by n modulo the capacity. -/
theorem popLoop_run (N : Nat) (mem : List Nat) (front n : Nat) (h16 : N ≤ 16)
    (hfront : front < 2 ^ N) (hn : n ≤ 2 ^ N - 1) :
    popLoop n mem front (2 ^ N - 1) (2 ^ N) n
      = (wrapRead (2 ^ N) mem front n, (front + n) % 2 ^ N) := by
  have hpos : 0 < 2 ^ N := by positivity
  have h32 : 2 ^ N < 2 ^ 32 := Nat.pow_lt_pow_right (by omega) (by omega)
  rcases Nat.eq_zero_or_pos n with rfl | hnpos
  · simp [popLoop, wrapRead, Nat.mod_eq_of_lt hfront]
  obtain ⟨m, rfl⟩ : ∃ m, n = m + 1 := ⟨n - 1, by omega⟩
  have hws : wsub 32 (2 ^ N) front = 2 ^ N - front :=
    wsub_eq_sub 32 _ _ (le_of_lt hfront) h32
  rw [popLoop, if_pos (Nat.succ_pos m), hws]
  rcases le_or_lt (m + 1) (2 ^ N - front) with hle | hlt
  · rw [if_neg (by omega)]
    dsimp only
    rw [Nat.sub_self, popLoop_zero, Nat.and_pow_two_sub_one_eq_mod,
      memRead_eq_wrapRead (2 ^ N) mem front _ (by omega), List.append_nil]
  · rw [if_pos hlt]
    dsimp only
    rw [show front + (2 ^ N - front) = 2 ^ N from by omega,
      Nat.and_pow_two_sub_one_eq_mod, Nat.mod_self]
    obtain ⟨m', rfl⟩ : ∃ m', m = m' + 1 := ⟨m - 1, by omega⟩
    have hq : m' + 1 + 1 - (2 ^ N - front) < 2 ^ N := by omega
    rw [popLoop, if_pos (by omega : m' + 1 + 1 - (2 ^ N - front) > 0),
      wsub_eq_sub 32 (2 ^ N) 0 (Nat.zero_le _) h32, Nat.sub_zero,
      if_neg (by omega : ¬ 2 ^ N < m' + 1 + 1 - (2 ^ N - front))]
    dsimp only
    rw [Nat.sub_self, popLoop_zero, Nat.zero_add, Nat.and_pow_two_sub_one_eq_mod,
      Nat.mod_eq_of_lt hq, List.append_nil,
      show m' + 1 + 1 = (2 ^ N - front) + (m' + 1 + 1 - (2 ^ N - front)) from by omega,
      wrapRead_add,
      show front + (2 ^ N - front) = 2 ^ N from by omega, Nat.mod_self,
      ← memRead_eq_wrapRead (2 ^ N) mem front _ (by omega),
      ← memRead_eq_wrapRead (2 ^ N) mem 0 _ (by omega),
      Prod.mk.injEq,
      show front + (2 ^ N - front + (m' + 1 + 1 - (2 ^ N - front)))
        = 2 ^ N + (m' + 1 + 1 - (2 ^ N - front)) from by omega,
      Nat.add_mod_left, Nat.mod_eq_of_lt hq]
    exact ⟨by rw [Nat.add_sub_cancel_left], by rw [Nat.add_sub_cancel_left]⟩

/-- Taking a prefix of a wrapped read is a shorter wrapped read. -/
theorem wrapRead_take (M : Nat) (mem : List Nat) (s c k : Nat) (hk : k ≤ c) :
    (wrapRead M mem s c).take k = wrapRead M mem s k := by
  unfold wrapRead
  rw [← List.map_take, List.take_range, Nat.min_eq_left hk]

/-! ### Closed forms of the bulk operations -/

/-- Closed form of the bulk push body on a well-formed buffer: it
accepts n = min(maxlen, capacity - 1 - unread) bytes, writes the first n
source bytes at back (wrapping), advances back by n, and returns n.  All
other fields, in particular the fault flag, are untouched. -/
theorem pushBack_body_spec {N : Nat} {b : CircularBufferObject} {mem : List Nat}
    (h : GoodBuf N b) (hm : b.memory = some mem) (data : List Nat) (maxlen : Nat)
    (hd : maxlen ≤ data.length) :
    CircularBuffer_pushBack_body b data maxlen
      = (min maxlen (2 ^ N - 1 - CircularBuffer_getUnreadSize_body b),
         { b with
             memory := some (wrapWrite (2 ^ N) mem b.back (data.take
                         (min maxlen (2 ^ N - 1 - CircularBuffer_getUnreadSize_body b)))),
             back := (b.back + min maxlen
                       (2 ^ N - 1 - CircularBuffer_getUnreadSize_body b)) % 2 ^ N }) := by
  obtain ⟨h1, h16, hmem, hmask, hlen, hback, hfront⟩ := id h
  have hU : CircularBuffer_getUnreadSize_body b ≤ 2 ^ N - 1 := by
    have := getUnread_lt h; omega
  unfold CircularBuffer_pushBack_body
  rw [hm, hmask, hlen]
  have hmin : (if 2 ^ N - 1 - CircularBuffer_getUnreadSize_body b > maxlen then maxlen
      else 2 ^ N - 1 - CircularBuffer_getUnreadSize_body b)
      = min maxlen (2 ^ N - 1 - CircularBuffer_getUnreadSize_body b) := by
    split <;> omega
  dsimp only [Option.getD_some, Option.map_some']
  rw [hmin, pushLoop_run N mem data b.back _ h16 hback (by omega) (by omega)]

/-- Closed form of the bulk pop body on a well-formed buffer: it
delivers n = min(maxlen, unread) bytes, namely the first n bytes of the
abstract queue in order, advances front by n, and returns n.  All other
fields, in particular the fault flag, are untouched. -/
theorem popFront_body_spec {N : Nat} {b : CircularBufferObject} {mem : List Nat}
    (h : GoodBuf N b) (hm : b.memory = some mem) (maxlen : Nat) :
    CircularBuffer_popFront_body b maxlen
      = ((bufQueue N b).take (min maxlen (CircularBuffer_getUnreadSize_body b)),
         min maxlen (CircularBuffer_getUnreadSize_body b),
         { b with front := (b.front + min maxlen
                             (CircularBuffer_getUnreadSize_body b)) % 2 ^ N }) := by
  obtain ⟨h1, h16, hmem, hmask, hlen, hback, hfront⟩ := id h
  have hU : CircularBuffer_getUnreadSize_body b ≤ 2 ^ N - 1 := by
    have := getUnread_lt h; omega
  unfold CircularBuffer_popFront_body
  rw [hm, hmask, hlen]
  have hmin : (if CircularBuffer_getUnreadSize_body b > maxlen then maxlen
      else CircularBuffer_getUnreadSize_body b)
      = min maxlen (CircularBuffer_getUnreadSize_body b) := by
    split <;> omega
  dsimp only [Option.getD_some]
  rw [hmin, popLoop_run N mem b.front _ h16 hfront (by omega)]
  unfold bufQueue
  rw [hm]
  dsimp only [Option.getD_some]
  rw [wrapRead_take _ _ _ _ _ (by omega)]

/-! ### Initialization facts -/

/-- CircularBuffer_init in closed form for a legal exponent. -/
theorem init_spec (m : Option (List Nat)) (n : Nat) (h : n ≤ 16) :
    CircularBuffer_init m n
      = some { memory := m, lengthMask := 2 ^ n - 1,
               length := if n ≠ 0 then (2 ^ n - 1) + 1 else 0,
               faultFlag := false, front := 0, back := 0 } := by
  simp [CircularBuffer_init, h]

/-- The freshly initialized buffer record is well-formed when the store
matches the capacity. -/
theorem mkBuf_good (N : Nat) (mem0 : List Nat) (h1 : 1 ≤ N) (h16 : N ≤ 16)
    (hlen : mem0.length = 2 ^ N) :
    GoodBuf N ⟨0, 0, false, 2 ^ N - 1, if N ≠ 0 then (2 ^ N - 1) + 1 else 0, some mem0⟩ := by
  have hpos : 0 < 2 ^ N := by positivity
  refine ⟨h1, h16, by simp [hlen], rfl, ?_, hpos, hpos⟩
  show (if N ≠ 0 then (2 ^ N - 1) + 1 else 0) = 2 ^ N
  rw [if_pos (by omega)]; omega

/-- A buffer freshly initialized with a store of matching size is
well-formed, empty, fault-free. -/
theorem init_good {N : Nat} {mem0 : List Nat} {b0 : CircularBufferObject}
    (h1 : 1 ≤ N) (h16 : N ≤ 16) (hlen : mem0.length = 2 ^ N)
    (hinit : CircularBuffer_init (some mem0) N = some b0) :
    GoodBuf N b0 ∧ CircularBuffer_getUnreadSize_body b0 = 0 ∧
    b0.faultFlag = false ∧ bufQueue N b0 = [] ∧ b0.memory = some mem0 := by
  rw [init_spec _ _ h16, Option.some.injEq] at hinit
  subst hinit
  have hg := mkBuf_good N mem0 h1 h16 hlen
  have hu : CircularBuffer_getUnreadSize_body
      (⟨0, 0, false, 2 ^ N - 1, if N ≠ 0 then (2 ^ N - 1) + 1 else 0, some mem0⟩ :
        CircularBufferObject) = 0 := by
    rw [getUnread_eq hg]; simp
  exact ⟨hg, hu, rfl, by unfold bufQueue; rw [hu]; rfl, rfl⟩

/-- The representation invariant ignores the fault flag. -/
theorem GoodBuf.fault_set {N : Nat} {b : CircularBufferObject} (h : GoodBuf N b) :
    GoodBuf N { b with faultFlag := true } := h

/-! ### Claim theorems -/

/-- C10: on an empty buffer (read cursor equal to write cursor),
CircularBuffer_popFrontByte returns false, leaves every buffer field
unchanged, and does not write through the destination pointer, whose
byte keeps its prior value. -/
theorem c10_popFrontByte_empty (b : CircularBufferObject) (mem : List Nat)
    (hm : b.memory = some mem) (he : b.back = b.front) (dest : Nat) :
    CircularBuffer_popFrontByte b dest = some (false, dest, b) :=
  popByte_fail hm he dest

/-- Witness for C10 at a concrete empty buffer and destination byte 42. -/
theorem c10_witness :
    CircularBuffer_popFrontByte ⟨0, 0, false, 3, 4, some [9, 9, 9, 9]⟩ 42
      = some (false, 42, ⟨0, 0, false, 3, 4, some [9, 9, 9, 9]⟩) :=
  c10_popFrontByte_empty ⟨0, 0, false, 3, 4, some [9, 9, 9, 9]⟩ [9, 9, 9, 9] rfl rfl 42

/-- The wrapped difference of a value with itself is zero. -/
theorem wsub_self (w a : Nat) : wsub w a a = 0 := by
  have hlt : a % 2 ^ w < 2 ^ w := Nat.mod_lt _ (by positivity)
  unfold wsub
  rw [show a % 2 ^ w + (2 ^ w - a % 2 ^ w) = 2 ^ w from by omega, Nat.mod_self]

/-- C7: CircularBuffer_checkAndClearFault returns the fault flag at call
time and always leaves it false afterwards; with the clear argument true
it also sets front to back so the unread count becomes 0, with false it
moves no cursor; a second immediate call with the clear argument false
returns false and changes nothing, so two consecutive calls with false
return true at most once and both return false with no fault pending. -/
theorem c7_checkAndClearFault (b : CircularBufferObject)
    (hm : b.memory.isSome = true) (c : Bool) :
    CircularBuffer_checkAndClearFault b c
      = some (b.faultFlag,
          { b with front := if c then b.back else b.front, faultFlag := false }) ∧
    CircularBuffer_getUnreadSize_body
        { b with front := if c then b.back else b.front, faultFlag := false }
      = (if c then 0 else CircularBuffer_getUnreadSize_body b) ∧
    CircularBuffer_checkAndClearFault
        { b with front := if c then b.back else b.front, faultFlag := false } false
      = some (false,
          { b with front := if c then b.back else b.front, faultFlag := false }) := by
  refine ⟨?_, ?_, ?_⟩
  · cases c <;> cases hf : b.faultFlag <;>
      simp [CircularBuffer_checkAndClearFault, CircularBuffer_checkAndClearFault_body,
        hm, hf] <;>
      rw [← hf]
  · cases c
    · rfl
    · show wsub 16 b.back b.back &&& b.lengthMask = 0
      rw [wsub_self, Nat.zero_and]
  · cases c <;>
      simp [CircularBuffer_checkAndClearFault, CircularBuffer_checkAndClearFault_body, hm]

/-- Witness for C7 at a concrete faulted buffer with clear = true. -/
theorem c7_witness :
    CircularBuffer_checkAndClearFault ⟨3, 1, true, 3, 4, some [5, 6, 7, 8]⟩ true
      = some (true, ⟨3, 3, false, 3, 4, some [5, 6, 7, 8]⟩) ∧
    CircularBuffer_getUnreadSize_body ⟨3, 3, false, 3, 4, some [5, 6, 7, 8]⟩ = 0 ∧
    CircularBuffer_checkAndClearFault ⟨3, 3, false, 3, 4, some [5, 6, 7, 8]⟩ false
      = some (false, ⟨3, 3, false, 3, 4, some [5, 6, 7, 8]⟩) :=
  c7_checkAndClearFault ⟨3, 1, true, 3, 4, some [5, 6, 7, 8]⟩ rfl true

/-- C6: across all six operations on an initialized buffer, the fault
flag after the operation is: set exactly when a single-byte push is
rejected for lack of space (and kept if already set), cleared by
checkAndClearFault, and otherwise identical to the flag before — so the
flag is sticky and checkAndClearFault is the only operation clearing it. -/
theorem c6_fault_flag (b : CircularBufferObject) (hm : b.memory.isSome = true)
    (op : BufAnyOp) :
    (applyAnyOp b op).faultFlag =
      match op with
      | .pushByte _ =>
          b.faultFlag || !(decide (CircularBuffer_getUnreadSize_body b < b.lengthMask))
      | .clearFault _ => false
      | _ => b.faultFlag := by
  cases op with
  | pushByte d =>
    by_cases hc : CircularBuffer_getUnreadSize_body b < b.lengthMask <;>
      simp [applyAnyOp, CircularBuffer_pushBackByte, CircularBuffer_pushBackByte_body,
        hm, hc]
  | popByte =>
    by_cases hc : b.back = b.front <;>
      simp [applyAnyOp, CircularBuffer_popFrontByte, CircularBuffer_popFrontByte_body,
        hm, hc]
  | bulkPush data maxlen =>
    simp [applyAnyOp, CircularBuffer_pushBack, CircularBuffer_pushBack_body, hm]
  | bulkPop maxlen =>
    simp [applyAnyOp, CircularBuffer_popFront, CircularBuffer_popFront_body, hm]
  | query => rfl
  | clearFault c =>
    cases c <;> cases hf : b.faultFlag <;>
      simp [applyAnyOp, CircularBuffer_checkAndClearFault,
        CircularBuffer_checkAndClearFault_body, hm, hf]

/-- Witness for C6: a rejected single-byte push on a concrete full
buffer sets the fault flag. -/
theorem c6_witness :
    (applyAnyOp ⟨3, 0, false, 3, 4, some [5, 6, 7, 8]⟩ (.pushByte 9)).faultFlag
      = (false || !(decide (CircularBuffer_getUnreadSize_body
          ⟨3, 0, false, 3, 4, some [5, 6, 7, 8]⟩ < 3))) :=
  c6_fault_flag ⟨3, 0, false, 3, 4, some [5, 6, 7, 8]⟩ rfl (.pushByte 9)

/-- C2: single-byte push on a well-formed buffer: below capacity - 1 the
byte is stored at back, back advances by one (masked), fault is
untouched and the call returns true; at capacity - 1 the call returns
false, sets the fault flag, and moves no cursor and writes nothing.  In
particular, filling an empty buffer with 2 ^ N - 1 single pushes
succeeds throughout, the next push fails, returns false and sets fault,
and the unread count then equals 2 ^ N - 1. -/
theorem c2_pushBackByte (N : Nat) (b : CircularBufferObject) (mem : List Nat)
    (d : Nat) (h : GoodBuf N b) (hm : b.memory = some mem) :
    (CircularBuffer_getUnreadSize_body b < 2 ^ N - 1 →
      CircularBuffer_pushBackByte b d
        = some (true, { b with memory := some (mem.set b.back d),
                               back := (b.back + 1) % 2 ^ N })) ∧
    (CircularBuffer_getUnreadSize_body b = 2 ^ N - 1 →
      CircularBuffer_pushBackByte b d = some (false, { b with faultFlag := true })) ∧
    (∀ data : List Nat, data.length = 2 ^ N - 1 →
      CircularBuffer_getUnreadSize_body b = 0 →
      ∃ b1, pushBytesAll b data = some b1 ∧
        CircularBuffer_getUnreadSize b1 = some (2 ^ N - 1) ∧
        CircularBuffer_pushBackByte b1 d = some (false, { b1 with faultFlag := true })) := by
  refine ⟨fun hlt => pushByte_succ h hm d hlt,
    fun heq => pushByte_fail h d (by omega), ?_⟩
  intro data hdl hu0
  obtain ⟨hp, hg1, hu1, -⟩ := pushAll_spec h hm data (by omega)
  refine ⟨_, hp, ?_, ?_⟩
  · have : CircularBuffer_getUnreadSize_body
        { b with memory := some (wrapWrite (2 ^ N) mem b.back data),
                 back := (b.back + data.length) % 2 ^ N } = 2 ^ N - 1 := by
      rw [hu1]; omega
    simp [CircularBuffer_getUnreadSize, this]
  · exact pushByte_fail hg1 d (by rw [hu1]; omega)

/-- C3: FIFO round trip: pushing k <= capacity - 1 bytes one at a time
into a freshly initialized buffer (all pushes succeeding) and then
popping k times (all pops succeeding) returns exactly the pushed
sequence in order. -/
theorem c3_fifo_round_trip (N : Nat) (mem0 : List Nat) (data : List Nat)
    (b0 : CircularBufferObject) (h1 : 1 ≤ N) (h16 : N ≤ 16)
    (hlen : mem0.length = 2 ^ N) (hk : data.length ≤ 2 ^ N - 1)
    (hinit : CircularBuffer_init (some mem0) N = some b0) :
    ∃ b1 b2, pushBytesAll b0 data = some b1 ∧
      popBytesAll b1 data.length = some (data, b2) := by
  obtain ⟨hg, hu0, -, hq0, hm0⟩ := init_good h1 h16 hlen hinit
  obtain ⟨hp, hg1, hu1, hq1⟩ := pushAll_spec hg hm0 data (by omega)
  rw [hq0, List.nil_append] at hq1
  obtain ⟨hpop, -, -, -⟩ := popAll_spec hg1 rfl data.length (by rw [hu1, hu0]; omega)
  rw [hq1, List.take_length] at hpop
  exact ⟨_, _, hp, hpop⟩

/-- The abstract queue has exactly unread-many elements. -/
theorem bufQueue_length (N : Nat) (b : CircularBufferObject) :
    (bufQueue N b).length = CircularBuffer_getUnreadSize_body b := by
  unfold bufQueue
  exact wrapRead_length _ _ _ _

/-- C4: bulk push copies and returns exactly min(maxlen, F) bytes, with
F = capacity - 1 - unread the free space at call time, and never touches
the fault flag even when it truncates; bulk pop symmetrically copies and
returns exactly min(maxlen, unread) bytes without touching the fault
flag. -/
theorem c4_bulk_min_no_fault (N : Nat) (b : CircularBufferObject) (mem : List Nat)
    (data : List Nat) (maxlen : Nat) (h : GoodBuf N b) (hm : b.memory = some mem)
    (hd : maxlen ≤ data.length) :
    (∃ bp, CircularBuffer_pushBack b data maxlen
        = some (min maxlen (2 ^ N - 1 - CircularBuffer_getUnreadSize_body b), bp) ∧
      bp.faultFlag = b.faultFlag ∧
      bp.memory = some (wrapWrite (2 ^ N) mem b.back (data.take
        (min maxlen (2 ^ N - 1 - CircularBuffer_getUnreadSize_body b))))) ∧
    (∃ out bq, CircularBuffer_popFront b maxlen
        = some (out, min maxlen (CircularBuffer_getUnreadSize_body b), bq) ∧
      out = (bufQueue N b).take (min maxlen (CircularBuffer_getUnreadSize_body b)) ∧
      out.length = min maxlen (CircularBuffer_getUnreadSize_body b) ∧
      bq.faultFlag = b.faultFlag) := by
  have hms : b.memory.isSome = true := by rw [hm]; rfl
  constructor
  · have hspec : CircularBuffer_pushBack b data maxlen
        = some (min maxlen (2 ^ N - 1 - CircularBuffer_getUnreadSize_body b),
            { b with
                memory := some (wrapWrite (2 ^ N) mem b.back (data.take
                            (min maxlen (2 ^ N - 1 - CircularBuffer_getUnreadSize_body b)))),
                back := (b.back + min maxlen
                          (2 ^ N - 1 - CircularBuffer_getUnreadSize_body b)) % 2 ^ N }) := by
      unfold CircularBuffer_pushBack
      rw [hms, if_pos rfl, pushBack_body_spec h hm data maxlen hd]
    exact ⟨_, hspec, rfl, rfl⟩
  · have hspec : CircularBuffer_popFront b maxlen
        = some ((bufQueue N b).take (min maxlen (CircularBuffer_getUnreadSize_body b)),
            min maxlen (CircularBuffer_getUnreadSize_body b),
            { b with front := (b.front + min maxlen
                                (CircularBuffer_getUnreadSize_body b)) % 2 ^ N }) := by
      unfold CircularBuffer_popFront
      rw [hms, if_pos rfl, popFront_body_spec h hm maxlen]
    refine ⟨_, _, hspec, rfl, ?_, rfl⟩
    rw [List.length_take, bufQueue_length]
    omega

/-- C8: on any well-formed buffer state (any cursor positions, including
wrapped ones) the bulk operations agree extensionally with iterating the
single-byte operations the accepted number of times: bulk push accepting
n bytes yields exactly the state of n successful single-byte pushes of
those bytes, and bulk pop delivering n bytes yields exactly the bytes
and state of n successful single-byte pops. -/
theorem c8_bulk_eq_iterated (N : Nat) (b : CircularBufferObject) (mem : List Nat)
    (data : List Nat) (maxlen : Nat) (h : GoodBuf N b) (hm : b.memory = some mem)
    (hd : maxlen ≤ data.length) :
    (∃ n bp, CircularBuffer_pushBack b data maxlen = some (n, bp) ∧
      pushBytesAll b (data.take n) = some bp) ∧
    (∃ n out bq, CircularBuffer_popFront b maxlen = some (out, n, bq) ∧
      popBytesAll b n = some (out, bq)) := by
  have hms : b.memory.isSome = true := by rw [hm]; rfl
  have hU : CircularBuffer_getUnreadSize_body b ≤ 2 ^ N - 1 := by
    have := getUnread_lt h
    obtain ⟨h1, -⟩ := h
    omega
  constructor
  · have hspec : CircularBuffer_pushBack b data maxlen
        = some (min maxlen (2 ^ N - 1 - CircularBuffer_getUnreadSize_body b),
            { b with
                memory := some (wrapWrite (2 ^ N) mem b.back (data.take
                            (min maxlen (2 ^ N - 1 - CircularBuffer_getUnreadSize_body b)))),
                back := (b.back + min maxlen
                          (2 ^ N - 1 - CircularBuffer_getUnreadSize_body b)) % 2 ^ N }) := by
      unfold CircularBuffer_pushBack
      rw [hms, if_pos rfl, pushBack_body_spec h hm data maxlen hd]
    obtain ⟨hp, -, -, -⟩ := pushAll_spec h hm
      (data.take (min maxlen (2 ^ N - 1 - CircularBuffer_getUnreadSize_body b)))
      (by rw [List.length_take]; omega)
    have hlt : (data.take (min maxlen
          (2 ^ N - 1 - CircularBuffer_getUnreadSize_body b))).length
        = min maxlen (2 ^ N - 1 - CircularBuffer_getUnreadSize_body b) := by
      rw [List.length_take]; omega
    rw [hlt] at hp
    exact ⟨_, _, hspec, hp⟩
  · have hspec : CircularBuffer_popFront b maxlen
        = some ((bufQueue N b).take (min maxlen (CircularBuffer_getUnreadSize_body b)),
            min maxlen (CircularBuffer_getUnreadSize_body b),
            { b with front := (b.front + min maxlen
                                (CircularBuffer_getUnreadSize_body b)) % 2 ^ N }) := by
      unfold CircularBuffer_popFront
      rw [hms, if_pos rfl, popFront_body_spec h hm maxlen]
    obtain ⟨hpop, -, -, -⟩ := popAll_spec h hm
      (min maxlen (CircularBuffer_getUnreadSize_body b)) (by omega)
    exact ⟨_, _, _, hspec, hpop⟩

/-- Invariant propagation for C1: running any sequence of single-byte
pushes and pops, starting from a well-formed buffer whose unread size is
the difference of the running counters, keeps the buffer well-formed and
keeps the unread size equal to successful pushes minus successful pops. -/
theorem runSPSC_invariant (N : Nat) (ops : List SPSCOp) :
    ∀ (b : CircularBufferObject) (pu po : Nat), GoodBuf N b → po ≤ pu →
      CircularBuffer_getUnreadSize_body b = pu - po →
      GoodBuf N (ops.foldl stepSPSC (b, pu, po)).1 ∧
      (ops.foldl stepSPSC (b, pu, po)).2.2 ≤ (ops.foldl stepSPSC (b, pu, po)).2.1 ∧
      CircularBuffer_getUnreadSize_body (ops.foldl stepSPSC (b, pu, po)).1
        = (ops.foldl stepSPSC (b, pu, po)).2.1 - (ops.foldl stepSPSC (b, pu, po)).2.2 := by
  induction ops with
  | nil => intro b pu po hg hle he; exact ⟨hg, hle, he⟩
  | cons op rest ih =>
    intro b pu po hg hle he
    obtain ⟨mem, hm, hml⟩ := hg.mem_spec
    have hmask : b.lengthMask = 2 ^ N - 1 := hg.2.2.2.1
    rw [List.foldl_cons]
    cases op with
    | push d =>
      by_cases hc : CircularBuffer_getUnreadSize_body b < 2 ^ N - 1
      · have hstep : stepSPSC (b, pu, po) (.push d)
            = ({ b with memory := some (mem.set b.back d),
                        back := (b.back + 1) % 2 ^ N }, pu + 1, po) := by
          simp [stepSPSC, pushByte_succ hg hm d hc]
        rw [hstep]
        exact ih _ _ _ (pushByte_succ_good hg hm d) (by omega)
          (by rw [unread_push hg hm d hc, he]; omega)
      · have hstep : stepSPSC (b, pu, po) (.push d)
            = ({ b with faultFlag := true }, pu, po) := by
          simp [stepSPSC, pushByte_fail hg d hc]
        rw [hstep]
        exact ih _ _ _ hg.fault_set hle he
    | pop =>
      by_cases hc : CircularBuffer_getUnreadSize_body b = 0
      · have hstep : stepSPSC (b, pu, po) .pop = (b, pu, po) := by
          simp [stepSPSC, popByte_fail hm ((getUnread_eq_zero_iff hg).mp hc) 0]
        rw [hstep]
        exact ih _ _ _ hg hle he
      · have hstep : stepSPSC (b, pu, po) .pop
            = ({ b with front := (b.front + 1) % 2 ^ N }, pu, po + 1) := by
          simp [stepSPSC, popByte_succ hg hm 0 hc]
        rw [hstep]
        exact ih _ _ _ (popByte_succ_good hg) (by omega)
          (by rw [unread_pop hg hc, he]; omega)

/-- C1: for every capacity exponent N with 1 <= N <= 16 and every
sequence of single-byte pushes and pops run on a freshly initialized
buffer, the unread-size query returns the number of successful pushes
minus the number of successful pops, and that value never exceeds
capacity - 1 = 2 ^ N - 1. -/
theorem c1_unread_counts (N : Nat) (mem0 : List Nat) (ops : List SPSCOp)
    (b0 : CircularBufferObject) (h1 : 1 ≤ N) (h16 : N ≤ 16)
    (hlen : mem0.length = 2 ^ N)
    (hinit : CircularBuffer_init (some mem0) N = some b0) :
    CircularBuffer_getUnreadSize (runSPSC b0 ops).1
      = some ((runSPSC b0 ops).2.1 - (runSPSC b0 ops).2.2) ∧
    (runSPSC b0 ops).2.2 ≤ (runSPSC b0 ops).2.1 ∧
    (runSPSC b0 ops).2.1 - (runSPSC b0 ops).2.2 ≤ 2 ^ N - 1 := by
  obtain ⟨hg, hu0, -, -, -⟩ := init_good h1 h16 hlen hinit
  obtain ⟨hgf, hlef, hef⟩ := runSPSC_invariant N ops b0 0 0 hg (le_refl 0) hu0
  obtain ⟨memf, hmf, -⟩ := hgf.mem_spec
  have hlt := getUnread_lt hgf
  unfold runSPSC
  refine ⟨?_, hlef, by omega⟩
  unfold CircularBuffer_getUnreadSize
  rw [hmf]
  show some _ = _
  rw [hef]

/-- C5 counterexample: a buffer initialized with a NULL store and
exponent 0 fails the memory assertion of every operation — already the
first single-byte push does not execute normally (none models the failed
assert), refuting "no assertion failure in any operation". -/
theorem c5_counterexample :
    ∃ b0, CircularBuffer_init none 0 = some b0 ∧
      CircularBuffer_pushBackByte b0 0 = none ∧
      CircularBuffer_getUnreadSize b0 = none := by
  exact ⟨⟨0, 0, false, 0, 0, none⟩, by decide, by decide, by decide⟩

/-- C5 amended: the NULL/exponent-0 buffer is a valid degenerate object
whose operations all fail their memory assertion in a debug build
(modelled: none); with the assertions compiled out, the function bodies
reject everything as claimed — single push returns false, single pop
returns false, bulk push returns 0, bulk pop returns 0, the unread count
is 0, cursors never move — but the rejected single push sets the fault
flag, so it is not a pure no-op. -/
theorem c5_amended_degenerate :
    ∃ b0, CircularBuffer_init none 0 = some b0 ∧
      CircularBuffer_pushBackByte b0 7 = none ∧
      CircularBuffer_popFrontByte b0 0 = none ∧
      CircularBuffer_pushBack b0 [1, 2, 3] 3 = none ∧
      CircularBuffer_popFront b0 5 = none ∧
      CircularBuffer_getUnreadSize b0 = none ∧
      CircularBuffer_checkAndClearFault b0 true = none ∧
      CircularBuffer_pushBackByte_body b0 7 = (false, { b0 with faultFlag := true }) ∧
      CircularBuffer_popFrontByte_body b0 9 = (false, 9, b0) ∧
      CircularBuffer_pushBack_body b0 [1, 2, 3] 3 = (0, b0) ∧
      CircularBuffer_popFront_body b0 5 = ([], 0, b0) ∧
      CircularBuffer_getUnreadSize_body b0 = 0 := by
  refine ⟨⟨0, 0, false, 0, 0, none⟩, ?_, ?_, ?_, ?_, ?_, ?_, ?_, ?_, ?_, ?_, ?_, ?_⟩ <;>
    decide

/-! ### Witnesses -/

/-- Witness for C1: exponent 2, three successful pushes and one
successful pop leave an unread count of 2. -/
theorem c1_witness :
    CircularBuffer_getUnreadSize
        (runSPSC ⟨0, 0, false, 3, 4, some [0, 0, 0, 0]⟩
          [SPSCOp.push 5, SPSCOp.push 6, SPSCOp.pop, SPSCOp.push 7]).1
      = some 2 := by
  have h := c1_unread_counts 2 [0, 0, 0, 0]
    [SPSCOp.push 5, SPSCOp.push 6, SPSCOp.pop, SPSCOp.push 7]
    ⟨0, 0, false, 3, 4, some [0, 0, 0, 0]⟩ (by omega) (by omega) (by decide) (by decide)
  rw [h.1]
  decide

/-- Witness for C2 at exponent 2: a push into an empty buffer stores the
byte at back and succeeds; filling the buffer with three bytes makes the
fourth push fail and set the fault flag. -/
theorem c2_witness :
    CircularBuffer_pushBackByte ⟨0, 0, false, 3, 4, some [0, 0, 0, 0]⟩ 9
      = some (true, ⟨1, 0, false, 3, 4, some [9, 0, 0, 0]⟩) ∧
    (∃ b1, pushBytesAll ⟨0, 0, false, 3, 4, some [0, 0, 0, 0]⟩ [1, 2, 3] = some b1 ∧
      CircularBuffer_getUnreadSize b1 = some 3 ∧
      CircularBuffer_pushBackByte b1 9 = some (false, { b1 with faultFlag := true })) := by
  have h := c2_pushBackByte 2 ⟨0, 0, false, 3, 4, some [0, 0, 0, 0]⟩ [0, 0, 0, 0] 9
    (by decide) rfl
  exact ⟨h.1 (by decide), h.2.2 [1, 2, 3] (by decide) (by decide)⟩

/-- Witness for C3 at exponent 2: pushing [7, 8, 9] and popping three
bytes returns [7, 8, 9]. -/
theorem c3_witness :
    ∃ b1 b2, pushBytesAll ⟨0, 0, false, 3, 4, some [0, 0, 0, 0]⟩ [7, 8, 9] = some b1 ∧
      popBytesAll b1 3 = some ([7, 8, 9], b2) :=
  c3_fifo_round_trip 2 [0, 0, 0, 0] [7, 8, 9] ⟨0, 0, false, 3, 4, some [0, 0, 0, 0]⟩
    (by omega) (by omega) (by decide) (by decide) (by decide)

/-- Witness for C4 at exponent 2 on a wrapped buffer (back 1, front 3,
unread 2): a bulk push of 2 bytes truncates to the single free slot,
returns 1, does not set fault; a bulk pop of 2 bytes delivers both
unread bytes across the wrap and does not set fault. -/
theorem c4_witness :
    (∃ bp, CircularBuffer_pushBack ⟨1, 3, false, 3, 4, some [10, 11, 12, 13]⟩ [7, 8] 2
        = some (1, bp) ∧ bp.faultFlag = false ∧ bp.memory = some [10, 7, 12, 13]) ∧
    (∃ out bq, CircularBuffer_popFront ⟨1, 3, false, 3, 4, some [10, 11, 12, 13]⟩ 2
        = some (out, 2, bq) ∧ out = [13, 10] ∧ bq.faultFlag = false) := by
  have h := c4_bulk_min_no_fault 2 ⟨1, 3, false, 3, 4, some [10, 11, 12, 13]⟩
    [10, 11, 12, 13] [7, 8] 2 (by decide) rfl (by decide)
  obtain ⟨⟨bp, h1p, h2p, h3p⟩, ⟨out, bq, h1q, h2q, h3q, h4q⟩⟩ := h
  exact ⟨⟨bp, h1p, h2p, h3p⟩, ⟨out, bq, h1q, h2q, h4q⟩⟩

/-- Witness for C8 at exponent 2 on a wrapped buffer: bulk push and pop
agree with their iterated single-byte counterparts. -/
theorem c8_witness :
    (∃ n bp, CircularBuffer_pushBack ⟨1, 3, false, 3, 4, some [10, 11, 12, 13]⟩ [7, 8] 2
        = some (n, bp) ∧
      pushBytesAll ⟨1, 3, false, 3, 4, some [10, 11, 12, 13]⟩ ([7, 8].take n) = some bp) ∧
    (∃ n out bq, CircularBuffer_popFront ⟨1, 3, false, 3, 4, some [10, 11, 12, 13]⟩ 2
        = some (out, n, bq) ∧
      popBytesAll ⟨1, 3, false, 3, 4, some [10, 11, 12, 13]⟩ n = some (out, bq)) :=
  c8_bulk_eq_iterated 2 ⟨1, 3, false, 3, 4, some [10, 11, 12, 13]⟩ [10, 11, 12, 13]
    [7, 8] 2 (by decide) rfl (by decide)
